import Mathlib

/-!
Shallow embedding of the w3name IPNS record codec and CLI
(`w3name/src/ipns/mod.rs`, `w3name-cli/src/main.rs`).

Bytes are lists of naturals; machine integers are `Nat`/`Int` with explicit
wrapping where the source casts. External collaborators (libp2p Ed25519
signing, chrono RFC-3339 handling, UTF-8 validation) are parameters of the
codec, gathered in `Externals`; theorems assume only their documented
contracts, and `toyExternals` is a concrete instantiation used to evaluate
statements on explicit inputs.
-/

/-- Byte strings of the source are modelled as lists of naturals. -/
abbrev Bytes := List Nat

/-- Cardinality of `u64`. -/
def u64Size : Nat := 18446744073709551616

/-- Largest `i64` value, as a natural. -/
def i64MaxNat : Nat := 9223372036854775807

/-- Largest `i64` value, as an integer. -/
def i64MaxInt : Int := 9223372036854775807

/-- Smallest `i64` value. -/
def i64MinInt : Int := -9223372036854775808

/-- Rust `as u64` cast of an `i64` value (two's-complement wrap). -/
def i64AsU64 (i : Int) : Nat := (i % (18446744073709551616 : Int)).toNat

/-- Rust `as i32` cast of a `u64` value (truncating, two's-complement). -/
def u64AsI32 (n : Nat) : Int :=
  if n % 4294967296 < 2147483648 then ((n % 4294967296 : Nat) : Int)
  else ((n % 4294967296 : Nat) : Int) - 4294967296

/-- Modelled from the spec: chrono `Duration::num_nanoseconds`, `some` exactly
when the duration fits in an `i64` nanosecond count (durations are modelled as
integer nanosecond counts). -/
def num_nanoseconds (d : Int) : Option Int :=
  if i64MinInt ≤ d ∧ d ≤ i64MaxInt then some d else none

/-- Rust `i64::try_from` on a `u64` value: fails exactly above `i64::MAX`. -/
def tryIntoI64 (n : Nat) : Option Int :=
  if n ≤ i64MaxNat then some (n : Int) else none

/-- The wire envelope `IpnsEntry` (prost message; spec §3/§6). Field numbers:
value=1, signature=2, validity_type=3, validity=4, sequence=5, ttl=6,
pub_key=7, signature_v2=8, data=9. -/
structure IpnsEntry where
  value : Bytes
  signature : Bytes
  validity_type : Int
  validity : Bytes
  sequence : Nat
  ttl : Nat
  pub_key : Bytes
  signature_v2 : Bytes
  data : Bytes
deriving DecidableEq

/-- Prost `Default` state of an entry: empty byte fields, zero scalars. -/
def IpnsEntry.default : IpnsEntry := ⟨[], [], 0, [], 0, 0, [], [], []⟩

/-- The CBOR signature payload struct of the source (`SignatureV2Data`). -/
structure SignatureV2Data where
  Value : Bytes
  Validity : Bytes
  ValidityType : Nat
  Sequence : Nat
  TTL : Nat
deriving DecidableEq

/-- The logical record: name, value (UTF-8 bytes of the string), validity
timestamp (abstract instant), sequence (`u64`), ttl (chrono duration in
nanoseconds). -/
structure Revision where
  name : Bytes
  value : Bytes
  validity : Int
  sequence : Nat
  ttl : Int
deriving DecidableEq

/-- Modelled from the spec: the external collaborators of the codec — libp2p
Ed25519 signing and verification, UTF-8 validation (which returns the very
bytes on success), and chrono RFC-3339 formatting/parsing of timestamps. The
codec is parameterized over them. -/
structure Externals where
  sign : Bytes → Bytes → Bytes
  pubOf : Bytes → Bytes
  verify : Bytes → Bytes → Bytes → Bool
  fromUtf8 : Bytes → Option Bytes
  formatRfc3339 : Int → Bytes
  parseRfc3339 : Bytes → Option Int

/-- Validation failure causes. The source wraps these into `IpnsError` with
`change_context`, which keeps the cause in the report stack; the embedding
keeps the cause as the error value (`InvalidIpnsV1Signature`,
`InvalidIpnsV2Signature`, `InvalidIpnsV2SignatureData`). -/
inductive ValidationError where
  | invalidV1Signature
  | invalidV2Signature
  | invalidV2Data
deriving DecidableEq

/-- The opaque module-boundary error (`IpnsError`). -/
inductive IpnsError where
  | mk
deriving DecidableEq

instance {ε α : Type} [DecidableEq ε] [DecidableEq α] : DecidableEq (Except ε α) := fun x y =>
  match x, y with
  | .ok a, .ok b =>
    if h : a = b then .isTrue (by rw [h]) else .isFalse (by intro hc; injection hc; contradiction)
  | .error a, .error b =>
    if h : a = b then .isTrue (by rw [h]) else .isFalse (by intro hc; injection hc; contradiction)
  | .ok _, .error _ => .isFalse (by intro hc; injection hc)
  | .error _, .ok _ => .isFalse (by intro hc; injection hc)

/- ### CBOR encoding (serde_cbor, modelled from the spec) -/

/-- Big-endian byte rendering of a natural on `k` bytes. -/
def bytesBE : Nat → Nat → Bytes
  | 0, _ => []
  | k+1, a => a / 256^k :: bytesBE k (a % 256^k)

/-- CBOR head: major type and shortest-form argument (RFC 8949). -/
def cborHead (major a : Nat) : Bytes :=
  if a < 24 then [major * 32 + a]
  else if a < 256 then (major * 32 + 24) :: bytesBE 1 a
  else if a < 65536 then (major * 32 + 25) :: bytesBE 2 a
  else if a < 4294967296 then (major * 32 + 26) :: bytesBE 4 a
  else (major * 32 + 27) :: bytesBE 8 a

/-- CBOR definite-length byte string (major type 2). -/
def cborBstr (b : Bytes) : Bytes := cborHead 2 b.length ++ b

/-- CBOR definite-length text string used for a map key (major type 3). -/
def cborKey (k : Bytes) : Bytes := cborHead 3 k.length ++ k

/-- CBOR unsigned integer (major type 0). -/
def cborUint (n : Nat) : Bytes := cborHead 0 n

/-- UTF-8 bytes of the key `Value`. -/
def keyValue : Bytes := [86, 97, 108, 117, 101]

/-- UTF-8 bytes of the key `Validity`. -/
def keyValidity : Bytes := [86, 97, 108, 105, 100, 105, 116, 121]

/-- UTF-8 bytes of the key `ValidityType`. -/
def keyValidityType : Bytes := [86, 97, 108, 105, 100, 105, 116, 121, 84, 121, 112, 101]

/-- UTF-8 bytes of the key `Sequence`. -/
def keySequence : Bytes := [83, 101, 113, 117, 101, 110, 99, 101]

/-- UTF-8 bytes of the key `TTL`. -/
def keyTTL : Bytes := [84, 84, 76]

/-- Modelled from the spec: `serde_cbor::to_vec` on `SignatureV2Data` — a
definite-length five-entry map, keys in struct field order, `Value` and
`Validity` as byte strings (serde_bytes), the other three as unsigned
integers, all heads in shortest form. Being a function, it is deterministic:
equal inputs give the identical byte sequence. -/
def cborEncodeSigData (d : SignatureV2Data) : Bytes :=
  cborHead 5 5
    ++ cborKey keyValue ++ cborBstr d.Value
    ++ cborKey keyValidity ++ cborBstr d.Validity
    ++ cborKey keyValidityType ++ cborUint d.ValidityType
    ++ cborKey keySequence ++ cborUint d.Sequence
    ++ cborKey keyTTL ++ cborUint d.TTL

/- ### CBOR decoding (serde_cbor, modelled from the spec) -/

/-- Read `k` bytes big-endian. -/
def readBE : Nat → Bytes → Option (Nat × Bytes)
  | 0, l => some (0, l)
  | _+1, [] => none
  | k+1, b :: l =>
    match readBE k l with
    | some (n, r) => some (b * 256^k + n, r)
    | none => none

/-- Parse a CBOR head, returning major type, argument and remainder. Tolerant:
accepts non-shortest heads, as the serde_cbor reader does. -/
def parseHead : Bytes → Option (Nat × Nat × Bytes)
  | [] => none
  | b :: l =>
    if b % 32 < 24 then some (b / 32, b % 32, l)
    else if b % 32 = 24 then
      match readBE 1 l with
      | some (n, r) => some (b / 32, n, r)
      | none => none
    else if b % 32 = 25 then
      match readBE 2 l with
      | some (n, r) => some (b / 32, n, r)
      | none => none
    else if b % 32 = 26 then
      match readBE 4 l with
      | some (n, r) => some (b / 32, n, r)
      | none => none
    else if b % 32 = 27 then
      match readBE 8 l with
      | some (n, r) => some (b / 32, n, r)
      | none => none
    else none

/-- Read a definite-length string of the given major type. -/
def readChunk (major : Nat) (l : Bytes) : Option (Bytes × Bytes) :=
  match parseHead l with
  | some (m, len, rest) =>
    if m = major ∧ len ≤ rest.length then some (rest.take len, rest.drop len) else none
  | none => none

/-- Read an unsigned integer (major type 0). -/
def readUint (l : Bytes) : Option (Nat × Bytes) :=
  match parseHead l with
  | some (m, n, rest) => if m = 0 then some (n, rest) else none
  | none => none

/-- Accumulator for the five payload fields while reading map entries. -/
structure SigFields where
  v : Option Bytes
  va : Option Bytes
  vt : Option Nat
  sq : Option Nat
  tt : Option Nat
deriving DecidableEq

/-- No field seen yet. -/
def SigFields.empty : SigFields := ⟨none, none, none, none, none⟩

/-- Read one `key: value` map entry into the accumulator; a repeated or
unknown key is an error (serde rejects duplicate struct fields). -/
def readPair (l : Bytes) (acc : SigFields) : Option (SigFields × Bytes) :=
  match readChunk 3 l with
  | none => none
  | some (k, rest) =>
    if k = keyValue then
      match readChunk 2 rest, acc.v with
      | some (b, r), none => some ({ acc with v := some b }, r)
      | _, _ => none
    else if k = keyValidity then
      match readChunk 2 rest, acc.va with
      | some (b, r), none => some ({ acc with va := some b }, r)
      | _, _ => none
    else if k = keyValidityType then
      match readUint rest, acc.vt with
      | some (n, r), none => some ({ acc with vt := some n }, r)
      | _, _ => none
    else if k = keySequence then
      match readUint rest, acc.sq with
      | some (n, r), none => some ({ acc with sq := some n }, r)
      | _, _ => none
    else if k = keyTTL then
      match readUint rest, acc.tt with
      | some (n, r), none => some ({ acc with tt := some n }, r)
      | _, _ => none
    else none

/-- Read `n` map entries. -/
def readPairs : Nat → Bytes → SigFields → Option (SigFields × Bytes)
  | 0, l, acc => some (acc, l)
  | n+1, l, acc =>
    match readPair l acc with
    | some (a, r) => readPairs n r a
    | none => none

/-- Modelled from the spec: `serde_cbor::from_slice` into `SignatureV2Data` —
tolerant of key order and non-shortest heads, requiring a definite-length map
carrying exactly the five known keys once each and full input consumption. -/
def cborDecodeSigData (l : Bytes) : Option SignatureV2Data :=
  match parseHead l with
  | some (m, n, rest) =>
    if m = 5 then
      match readPairs n rest SigFields.empty with
      | some (⟨some v, some va, some vt, some sq, some tt⟩, []) => some ⟨v, va, vt, sq, tt⟩
      | _ => none
    else none
  | none => none

/- ### Protobuf envelope (prost, modelled from the spec) -/

/-- LEB128 base-128 varint encoding, structured on a fuel that bounds the
number of emitted bytes (`fuel = n` always suffices). -/
def varintEncodeAux : Nat → Nat → Bytes
  | 0, n => [n % 128]
  | fuel+1, n => if n < 128 then [n] else (n % 128 + 128) :: varintEncodeAux fuel (n / 128)

/-- LEB128 base-128 varint encoding. -/
def varintEncode (n : Nat) : Bytes := varintEncodeAux n n

/-- Varint decoding, returning the value and the remainder. -/
def varintDecode : Bytes → Option (Nat × Bytes)
  | [] => none
  | b :: l =>
    if b < 128 then some (b, l)
    else
      match varintDecode l with
      | some (n, r) => some (n * 128 + (b - 128), r)
      | none => none

/-- One length-delimited protobuf field (wire type 2); skipped when empty, as
prost skips default values. -/
def pbBytesField (fieldNo : Nat) (b : Bytes) : Bytes :=
  if b = [] then [] else varintEncode (fieldNo * 8 + 2) ++ varintEncode b.length ++ b

/-- One varint protobuf field (wire type 0); skipped when zero. -/
def pbVarintField (fieldNo n : Nat) : Bytes :=
  if n = 0 then [] else varintEncode (fieldNo * 8) ++ varintEncode n

/-- Modelled from the spec: prost encoding of the IPNS entry (`serialize` of
§4.4) — fields in number order (§6), defaults skipped, byte fields
length-delimited, integer fields varint (`int32` sign-extended to 64 bits). -/
def serialize_ipns_entry (e : IpnsEntry) : Bytes :=
  pbBytesField 1 e.value ++ pbBytesField 2 e.signature
    ++ pbVarintField 3 (i64AsU64 e.validity_type) ++ pbBytesField 4 e.validity
    ++ pbVarintField 5 e.sequence ++ pbVarintField 6 e.ttl
    ++ pbBytesField 7 e.pub_key ++ pbBytesField 8 e.signature_v2
    ++ pbBytesField 9 e.data

/-- Store a decoded length-delimited field; unknown numbers are dropped. -/
def setBytesField (e : IpnsEntry) (fieldNo : Nat) (b : Bytes) : IpnsEntry :=
  match fieldNo with
  | 1 => { e with value := b }
  | 2 => { e with signature := b }
  | 4 => { e with validity := b }
  | 7 => { e with pub_key := b }
  | 8 => { e with signature_v2 := b }
  | 9 => { e with data := b }
  | _ => e

/-- Store a decoded varint field; unknown numbers are dropped. -/
def setVarintField (e : IpnsEntry) (fieldNo n : Nat) : IpnsEntry :=
  match fieldNo with
  | 3 => { e with validity_type := u64AsI32 n }
  | 5 => { e with sequence := n }
  | 6 => { e with ttl := n }
  | _ => e

/-- Decode a sequence of protobuf field records (fuel-indexed; each record
consumes at least one byte). -/
def deserialize_loop : Nat → Bytes → IpnsEntry → Option IpnsEntry
  | _, [], e => some e
  | 0, _ :: _, _ => none
  | fuel+1, b :: l, e =>
    match varintDecode (b :: l) with
    | none => none
    | some (tag, rest) =>
      if tag % 8 = 2 then
        match varintDecode rest with
        | none => none
        | some (len, rest2) =>
          if len ≤ rest2.length then
            deserialize_loop fuel (rest2.drop len) (setBytesField e (tag / 8) (rest2.take len))
          else none
      else if tag % 8 = 0 then
        match varintDecode rest with
        | none => none
        | some (n, rest2) => deserialize_loop fuel rest2 (setVarintField e (tag / 8) n)
      else none

/-- Modelled from the spec: prost decoding of the IPNS entry (`deserialize` of
§4.4). The fuel `length + 9` strictly bounds the number of records. -/
def deserialize_ipns_entry (bytes : Bytes) : Option IpnsEntry :=
  deserialize_loop (bytes.length + 9) bytes IpnsEntry.default

/- ### The codec proper (`w3name/src/ipns/mod.rs`) -/

/-- The 15 ASCII bytes of `"ipns-signature:"` prepended to the v2 signature
input. -/
def ipnsSigTag : Bytes := [105, 112, 110, 115, 45, 115, 105, 103, 110, 97, 116, 117, 114, 101, 58]

/-- `v2_signature_data`: build the `SignatureV2Data` payload (ValidityType 0)
and CBOR-encode it. -/
def v2_signature_data (value validity : Bytes) (sequence ttl : Nat) : Bytes :=
  cborEncodeSigData ⟨value, validity, 0, sequence, ttl⟩

/-- `create_v2_signature`: sign `"ipns-signature:" ++ sig_data`. -/
def create_v2_signature (E : Externals) (signer sig_data : Bytes) : Bytes :=
  E.sign signer (ipnsSigTag ++ sig_data)

/-- The `ttl` local of `revision_to_ipns_entry`:
`revision.ttl().num_nanoseconds().unwrap_or(i64::MAX) as u64`. -/
def entry_ttl (r : Revision) : Nat := i64AsU64 ((num_nanoseconds r.ttl).getD i64MaxInt)

/-- The `data` local of `revision_to_ipns_entry`. -/
def entry_data (E : Externals) (r : Revision) : Bytes :=
  v2_signature_data r.value (E.formatRfc3339 r.validity) r.sequence (entry_ttl r)

/-- The entry literal built by `revision_to_ipns_entry`: only `signature_v2`
and `data` set, the rest `..Default::default()`. -/
def builtEntry (E : Externals) (r : Revision) (k : Bytes) : IpnsEntry :=
  { IpnsEntry.default with
      signature_v2 := create_v2_signature E k (entry_data E r)
      data := entry_data E r }

/-- `revision_to_ipns_entry`. Its only fallible steps are the external CBOR
encoder (total here) and the external signer (modelled total: libp2p Ed25519
signing does not fail), so the embedding always returns `ok`. -/
def revision_to_ipns_entry (E : Externals) (r : Revision) (k : Bytes) :
    Except IpnsError IpnsEntry :=
  Except.ok (builtEntry E r k)

/-- `v1_signature_data`: `value ++ "EOL" ++ validity`. -/
def v1_signature_data (value_bytes validity_bytes : Bytes) : Bytes :=
  value_bytes ++ [69, 79, 76] ++ validity_bytes

/-- `validate_v2_signature`. -/
def validate_v2_signature (E : Externals) (pk sig data : Bytes) :
    Except ValidationError Unit :=
  if E.verify pk (ipnsSigTag ++ data) sig then Except.ok ()
  else Except.error .invalidV2Signature

/-- The `is_v2_only` test of `validate_v2_data_matches_entry_data`: all v1
fields empty/zero. -/
def isV2Only (e : IpnsEntry) : Bool :=
  decide (e.value = [] ∧ e.validity = [] ∧ e.ttl = 0 ∧ e.sequence = 0)

/-- `validate_v2_data_matches_entry_data`: decode the CBOR payload, skip the
consistency check for v2-only entries, otherwise require the five pairs to
agree (`ValidityType` compared after the source's `as i32` cast). -/
def validate_v2_data_matches_entry_data (e : IpnsEntry) : Except ValidationError Unit :=
  if e.data = [] then Except.error .invalidV2Data
  else
    match cborDecodeSigData e.data with
    | none => Except.error .invalidV2Data
    | some d =>
      if isV2Only e then Except.ok ()
      else if e.value ≠ d.Value ∨ e.validity ≠ d.Validity ∨ e.sequence ≠ d.Sequence
          ∨ e.ttl ≠ d.TTL ∨ e.validity_type ≠ u64AsI32 d.ValidityType then
        Except.error .invalidV2Data
      else Except.ok ()

/-- `validate_v1_signature`. -/
def validate_v1_signature (E : Externals) (e : IpnsEntry) (pk : Bytes) :
    Except ValidationError Unit :=
  if E.verify pk (v1_signature_data e.value e.validity) e.signature then Except.ok ()
  else Except.error .invalidV1Signature

/-- `validate_ipns_entry`: v2 path when both `signature_v2` and `data` are
non-empty, otherwise the v1 path. -/
def validate_ipns_entry (E : Externals) (e : IpnsEntry) (pk : Bytes) :
    Except ValidationError Unit :=
  if e.signature_v2 ≠ [] ∧ e.data ≠ [] then
    match validate_v2_signature E pk e.signature_v2 e.data with
    | Except.error err => Except.error err
    | Except.ok () => validate_v2_data_matches_entry_data e
  else validate_v1_signature E e pk

/-- `revision_from_ipns_entry`: the CBOR payload is authoritative whenever
`data` is non-empty, otherwise the v1 protobuf fields are used. All error
causes are collapsed to `IpnsError` as in the source. -/
def revision_from_ipns_entry (E : Externals) (e : IpnsEntry) (name : Bytes) :
    Except IpnsError Revision :=
  if e.data ≠ [] then
    match cborDecodeSigData e.data with
    | none => Except.error .mk
    | some d =>
      match E.fromUtf8 d.Value with
      | none => Except.error .mk
      | some value =>
        match E.parseRfc3339 d.Validity with
        | none => Except.error .mk
        | some validity =>
          match tryIntoI64 d.TTL with
          | none => Except.error .mk
          | some ttl => Except.ok ⟨name, value, validity, d.Sequence, ttl⟩
  else
    match E.fromUtf8 e.value with
    | none => Except.error .mk
    | some value =>
      match E.parseRfc3339 e.validity with
      | none => Except.error .mk
      | some validity =>
        match tryIntoI64 e.ttl with
        | none => Except.error .mk
        | some ttl => Except.ok ⟨name, value, validity, e.sequence, ttl⟩

/-- Concrete instantiation of the external collaborators, used to evaluate the
codec on explicit inputs: an idealized signature scheme (a signature verifies
exactly for the message it signs, under the matching key), identity UTF-8
validation, and an injective timestamp rendering. -/
def toyExternals : Externals where
  sign k m := k ++ m
  pubOf k := k
  verify pk m s := decide (s = pk ++ m)
  fromUtf8 b := some b
  formatRfc3339 t := List.replicate (t.toNat + 1) 48
  parseRfc3339 b :=
    if b ≠ [] ∧ b.all (fun c => c = 48) then some ((b.length : Int) - 1) else none

/- ### CLI resolve (`w3name-cli/src/main.rs`) -/

/-- Modelled from the spec: `ClientError` of the client layer. A non-2xx
response surfaces as `APIError { status_code, message }`. -/
inductive ClientError where
  | api (status_code : Nat) (message : String)
  | transport
deriving DecidableEq

/-- `is_404`: the report holds an `APIError` with status 404. -/
def is_404 : ClientError → Bool
  | .api s _ => s == 404
  | .transport => false

/-- Observable outcome of a CLI invocation: process exit code, stdout lines
(byte strings), and modelled stderr lines. -/
structure CliResult where
  exitCode : Nat
  stdoutLines : List Bytes
  stderrLines : List String
deriving DecidableEq

/-- The CLI `resolve` command combined with `main`'s error handling: `Name.parse`
and the HTTP client are external, so their results are inputs. On success the
value is printed; on a 404 `APIError` the not-found line goes to stderr and the
command still succeeds (exit 0); any other failure exits 1 (the `Debug` dump of
the error report is not modelled as a structured line). -/
def cli_resolve (parsed : Option Bytes) (resolved : Except ClientError Revision)
    (nameStr : String) : CliResult :=
  match parsed with
  | none => ⟨1, [], []⟩
  | some _ =>
    match resolved with
    | .ok rev => ⟨0, [rev.value], []⟩
    | .error err =>
      if is_404 err then ⟨0, [], ["no record found for key " ++ nameStr]⟩
      else ⟨1, [], []⟩

/- ### Concrete inputs used to evaluate the statements -/

/-- Sample revision: name `[1]`, value `"hi"`, validity instant 2, sequence 3,
ttl 1000 ns. -/
def cRev : Revision := ⟨[1], [104, 105], 2, 3, 1000⟩

/-- Sample signing key. -/
def cKey : Bytes := [7]

/-- Revision whose ttl exceeds `i64::MAX` nanoseconds. -/
def cRevBig : Revision := ⟨[], [], 0, 0, 9223372036854775808⟩

/-- Second revision with an oversized ttl. -/
def cRevBig10 : Revision := ⟨[2], [97], 1, 5, 9223372036854775808⟩

/-- V2-only entry whose `data` is valid CBOR (`0`) but not a signature
payload, with a toy-correct signature over it. -/
def cEntryGarbage : IpnsEntry :=
  { IpnsEntry.default with data := [0], signature_v2 := ipnsSigTag ++ [0] }

/-- Entry with non-empty `data` but empty `signature_v2`, whose top-level v1
fields disagree with the CBOR payload. -/
def cEntryHybrid : IpnsEntry :=
  { IpnsEntry.default with
      value := [97], validity := [48], sequence := 1, ttl := 2,
      data := cborEncodeSigData ⟨[98], [48, 48], 0, 7, 9⟩ }

/-- Entry whose CBOR payload carries a TTL above `i64::MAX`. -/
def cEntryBigTtl : IpnsEntry :=
  { IpnsEntry.default with data := cborEncodeSigData ⟨[], [48], 0, 0, 9223372036854775808⟩ }

/-- V1 entry whose `ttl` field is above `i64::MAX`. -/
def cEntryBigTtlV1 : IpnsEntry :=
  { IpnsEntry.default with validity := [48], ttl := 9223372036854775808 }

/-- Plain v1 entry (empty `data`): value `"a"`, validity `"0"`, sequence 1,
ttl 2. -/
def cEntryV1 : IpnsEntry :=
  { IpnsEntry.default with value := [97], validity := [48], sequence := 1, ttl := 2 }

/-- Revision used for the tamper-rejection statements. -/
def cRev4 : Revision := ⟨[3], [119], 1, 0, 500⟩

/-- Key used for the tamper-rejection statements. -/
def cKey4 : Bytes := [9]

/-- Arbitrary entry with non-empty `signature_v2` and `data` whose toy
verification fails. -/
def cEntry6 : IpnsEntry := { IpnsEntry.default with signature_v2 := [1], data := [2] }

/-- CBOR payload whose `ValidityType` is `2^32`. -/
def cWrapData : Bytes := cborEncodeSigData ⟨[98], [48, 48], 4294967296, 7, 9⟩

/-- Hybrid entry whose payload `ValidityType` is `2^32` while the top-level
`validity_type` is `0`: the source's `as i32` cast makes them compare equal.
The toy signature over the payload is valid for the empty public key. -/
def cEntryWrap : IpnsEntry :=
  { IpnsEntry.default with
      value := [98], validity := [48, 48], sequence := 7, ttl := 9,
      data := cWrapData, signature_v2 := ipnsSigTag ++ cWrapData }

/- ### Roundtrip lemmas for the wire encodings -/

theorem varintDecodeAux_encode : ∀ (fuel n : Nat), n ≤ fuel → ∀ rest : Bytes,
    varintDecode (varintEncodeAux fuel n ++ rest) = some (n, rest) := by
  intro fuel
  induction fuel with
  | zero =>
    intro n hn rest
    have h0 : n = 0 := by omega
    subst h0
    simp [varintEncodeAux, varintDecode]
  | succ fuel ih =>
    intro n hn rest
    rw [varintEncodeAux]
    by_cases h : n < 128
    · simp [h, varintDecode]
    · have hrec := ih (n / 128) (by omega) rest
      simp [h, varintDecode, hrec]
      omega

theorem varintDecode_encode (n : Nat) (rest : Bytes) :
    varintDecode (varintEncode n ++ rest) = some (n, rest) :=
  varintDecodeAux_encode n n (Nat.le_refl n) rest

theorem varintEncode_small (n : Nat) (h : n < 128) : varintEncode n = [n] := by
  rw [varintEncode]
  cases n with
  | zero => rfl
  | succ m => rw [varintEncodeAux, if_pos h]

theorem readBE_bytesBE (k : Nat) : ∀ (a : Nat) (rest : Bytes), a < 256 ^ k →
    readBE k (bytesBE k a ++ rest) = some (a, rest) := by
  induction k with
  | zero => intro a rest ha; simp at ha; simp [ha, bytesBE, readBE]
  | succ k ih =>
    intro a rest ha
    have hpos : 0 < 256 ^ k := Nat.pos_pow_of_pos k (by omega)
    have hmod : a % 256 ^ k < 256 ^ k := Nat.mod_lt _ hpos
    rw [bytesBE]
    simp only [List.cons_append, readBE, List.append_eq, ih (a % 256 ^ k) rest hmod]
    have hdm : 256 ^ k * (a / 256 ^ k) + a % 256 ^ k = a := Nat.div_add_mod a (256 ^ k)
    have heq : a / 256 ^ k * 256 ^ k + a % 256 ^ k = a := by rw [Nat.mul_comm] at hdm; exact hdm
    rw [heq]

theorem parseHead_cborHead (m a : Nat) (rest : Bytes) (ha : a < u64Size) :
    parseHead (cborHead m a ++ rest) = some (m, a, rest) := by
  have h32 : (m * 32 + 24) % 32 = 24 := by omega
  rw [cborHead]
  by_cases h1 : a < 24
  · have hmod : (m * 32 + a) % 32 = a := by omega
    have hdiv : (m * 32 + a) / 32 = m := by omega
    simp [h1, parseHead, hmod, hdiv]
  · by_cases h2 : a < 256
    · have hb : (m * 32 + 24) / 32 = m := by omega
      simp [h1, h2, parseHead, h32, hb, readBE_bytesBE 1 a rest (by simpa using h2)]
    · by_cases h3 : a < 65536
      · have hmod : (m * 32 + 25) % 32 = 25 := by omega
        have hb : (m * 32 + 25) / 32 = m := by omega
        simp [h1, h2, h3, parseHead, hmod, hb,
          readBE_bytesBE 2 a rest (by norm_num; omega)]
      · by_cases h4 : a < 4294967296
        · have hmod : (m * 32 + 26) % 32 = 26 := by omega
          have hb : (m * 32 + 26) / 32 = m := by omega
          simp [h1, h2, h3, h4, parseHead, hmod, hb,
            readBE_bytesBE 4 a rest (by norm_num; omega)]
        · have hmod : (m * 32 + 27) % 32 = 27 := by omega
          have hb : (m * 32 + 27) / 32 = m := by omega
          have ha' : a < 256 ^ 8 := by
            have : (256 : Nat) ^ 8 = u64Size := by norm_num [u64Size]
            omega
          simp [h1, h2, h3, h4, parseHead, hmod, hb, readBE_bytesBE 8 a rest ha']

theorem readChunk_append (major : Nat) (b rest : Bytes) (hb : b.length < u64Size) :
    readChunk major (cborHead major b.length ++ b ++ rest) = some (b, rest) := by
  rw [readChunk, List.append_assoc, parseHead_cborHead major b.length (b ++ rest) hb]
  simp [List.take_left, List.drop_left]

theorem readUint_append (n : Nat) (rest : Bytes) (hn : n < u64Size) :
    readUint (cborUint n ++ rest) = some (n, rest) := by
  rw [readUint, cborUint, parseHead_cborHead 0 n rest hn]
  simp

theorem readPair_value (b rest : Bytes) (acc : SigFields) (hb : b.length < u64Size)
    (hv : acc.v = none) :
    readPair (cborKey keyValue ++ (cborBstr b ++ rest)) acc
      = some ({ acc with v := some b }, rest) := by
  have hk : readChunk 3 (cborKey keyValue ++ (cborBstr b ++ rest))
      = some (keyValue, cborBstr b ++ rest) := by
    rw [cborKey]; exact readChunk_append 3 keyValue (cborBstr b ++ rest) (by decide)
  have hc : readChunk 2 (cborBstr b ++ rest) = some (b, rest) := by
    rw [cborBstr]; exact readChunk_append 2 b rest hb
  simp [readPair, hk, hc, hv]

theorem readPair_validity (b rest : Bytes) (acc : SigFields) (hb : b.length < u64Size)
    (hv : acc.va = none) :
    readPair (cborKey keyValidity ++ (cborBstr b ++ rest)) acc
      = some ({ acc with va := some b }, rest) := by
  have hk : readChunk 3 (cborKey keyValidity ++ (cborBstr b ++ rest))
      = some (keyValidity, cborBstr b ++ rest) := by
    rw [cborKey]; exact readChunk_append 3 keyValidity (cborBstr b ++ rest) (by decide)
  have hc : readChunk 2 (cborBstr b ++ rest) = some (b, rest) := by
    rw [cborBstr]; exact readChunk_append 2 b rest hb
  have hne1 : ¬(keyValidity = keyValue) := by decide
  simp [readPair, hk, hc, hv, hne1]

theorem readPair_validity_type (n : Nat) (rest : Bytes) (acc : SigFields) (hn : n < u64Size)
    (hv : acc.vt = none) :
    readPair (cborKey keyValidityType ++ (cborUint n ++ rest)) acc
      = some ({ acc with vt := some n }, rest) := by
  have hk : readChunk 3 (cborKey keyValidityType ++ (cborUint n ++ rest))
      = some (keyValidityType, cborUint n ++ rest) := by
    rw [cborKey]; exact readChunk_append 3 keyValidityType (cborUint n ++ rest) (by decide)
  have hc : readUint (cborUint n ++ rest) = some (n, rest) := readUint_append n rest hn
  have hne1 : ¬(keyValidityType = keyValue) := by decide
  have hne2 : ¬(keyValidityType = keyValidity) := by decide
  simp [readPair, hk, hc, hv, hne1, hne2]

theorem readPair_sequence (n : Nat) (rest : Bytes) (acc : SigFields) (hn : n < u64Size)
    (hv : acc.sq = none) :
    readPair (cborKey keySequence ++ (cborUint n ++ rest)) acc
      = some ({ acc with sq := some n }, rest) := by
  have hk : readChunk 3 (cborKey keySequence ++ (cborUint n ++ rest))
      = some (keySequence, cborUint n ++ rest) := by
    rw [cborKey]; exact readChunk_append 3 keySequence (cborUint n ++ rest) (by decide)
  have hc : readUint (cborUint n ++ rest) = some (n, rest) := readUint_append n rest hn
  have hne1 : ¬(keySequence = keyValue) := by decide
  have hne2 : ¬(keySequence = keyValidity) := by decide
  have hne3 : ¬(keySequence = keyValidityType) := by decide
  simp [readPair, hk, hc, hv, hne1, hne2, hne3]

theorem readPair_ttl (n : Nat) (rest : Bytes) (acc : SigFields) (hn : n < u64Size)
    (hv : acc.tt = none) :
    readPair (cborKey keyTTL ++ (cborUint n ++ rest)) acc
      = some ({ acc with tt := some n }, rest) := by
  have hk : readChunk 3 (cborKey keyTTL ++ (cborUint n ++ rest))
      = some (keyTTL, cborUint n ++ rest) := by
    rw [cborKey]; exact readChunk_append 3 keyTTL (cborUint n ++ rest) (by decide)
  have hc : readUint (cborUint n ++ rest) = some (n, rest) := readUint_append n rest hn
  have hne1 : ¬(keyTTL = keyValue) := by decide
  have hne2 : ¬(keyTTL = keyValidity) := by decide
  have hne3 : ¬(keyTTL = keyValidityType) := by decide
  have hne4 : ¬(keyTTL = keySequence) := by decide
  simp [readPair, hk, hc, hv, hne1, hne2, hne3, hne4]

theorem readPairs_succ (n : Nat) (l r : Bytes) (acc a : SigFields)
    (h : readPair l acc = some (a, r)) :
    readPairs (n + 1) l acc = readPairs n r a := by
  rw [readPairs, h]

/-- Decoding inverts encoding for any payload whose fields fit their machine
types. -/
theorem cborDecodeSigData_encode (d : SignatureV2Data)
    (h1 : d.Value.length < u64Size) (h2 : d.Validity.length < u64Size)
    (h3 : d.ValidityType < u64Size) (h4 : d.Sequence < u64Size) (h5 : d.TTL < u64Size) :
    cborDecodeSigData (cborEncodeSigData d) = some d := by
  obtain ⟨v, va, vt, sq, tt⟩ := d
  simp only at h1 h2 h3 h4 h5
  rw [show cborEncodeSigData ⟨v, va, vt, sq, tt⟩
      = cborEncodeSigData ⟨v, va, vt, sq, tt⟩ ++ [] from (List.append_nil _).symm,
    cborEncodeSigData]
  simp only [List.append_assoc]
  have hparse : parseHead (cborHead 5 5 ++ (cborKey keyValue ++ (cborBstr v
      ++ (cborKey keyValidity ++ (cborBstr va ++ (cborKey keyValidityType ++ (cborUint vt
      ++ (cborKey keySequence ++ (cborUint sq ++ (cborKey keyTTL ++ (cborUint tt ++ [])))))))))))
      = some (5, 5, cborKey keyValue ++ (cborBstr v
      ++ (cborKey keyValidity ++ (cborBstr va ++ (cborKey keyValidityType ++ (cborUint vt
      ++ (cborKey keySequence ++ (cborUint sq ++ (cborKey keyTTL ++ (cborUint tt ++ [])))))))))) :=
    parseHead_cborHead 5 5 _ (by decide)
  have hs1 := readPair_value v
    (cborKey keyValidity ++ (cborBstr va ++ (cborKey keyValidityType ++ (cborUint vt
      ++ (cborKey keySequence ++ (cborUint sq ++ (cborKey keyTTL ++ (cborUint tt ++ []))))))))
    SigFields.empty h1 rfl
  have hs2 := readPair_validity va
    (cborKey keyValidityType ++ (cborUint vt
      ++ (cborKey keySequence ++ (cborUint sq ++ (cborKey keyTTL ++ (cborUint tt ++ []))))))
    { SigFields.empty with v := some v } h2 rfl
  have hs3 := readPair_validity_type vt
    (cborKey keySequence ++ (cborUint sq ++ (cborKey keyTTL ++ (cborUint tt ++ []))))
    { SigFields.empty with v := some v, va := some va } h3 rfl
  have hs4 := readPair_sequence sq
    (cborKey keyTTL ++ (cborUint tt ++ []))
    { SigFields.empty with v := some v, va := some va, vt := some vt } h4 rfl
  have hs5 := readPair_ttl tt []
    { SigFields.empty with v := some v, va := some va, vt := some vt, sq := some sq } h5 rfl
  have hpairs : readPairs 5 (cborKey keyValue ++ (cborBstr v
      ++ (cborKey keyValidity ++ (cborBstr va ++ (cborKey keyValidityType ++ (cborUint vt
      ++ (cborKey keySequence ++ (cborUint sq ++ (cborKey keyTTL ++ (cborUint tt ++ []))))))))))
      SigFields.empty
      = some (⟨some v, some va, some vt, some sq, some tt⟩, []) := by
    rw [readPairs_succ 4 _ _ _ _ hs1, readPairs_succ 3 _ _ _ _ hs2,
      readPairs_succ 2 _ _ _ _ hs3, readPairs_succ 1 _ _ _ _ hs4,
      readPairs_succ 0 _ _ _ _ hs5]
    rfl
  simp only [cborDecodeSigData, hparse, hpairs]
  rfl

theorem u64AsI32_i64AsU64 (v : Int) (h1 : -2147483648 ≤ v) (h2 : v < 2147483648) :
    u64AsI32 (i64AsU64 v) = v := by
  rw [i64AsU64, u64AsI32]
  omega

theorem deserialize_loop_mono (f : Nat) :
    ∀ (b : Bytes) (a r : IpnsEntry), deserialize_loop f b a = some r →
      deserialize_loop (f + 1) b a = some r := by
  induction f with
  | zero =>
    intro b a r h
    cases b with
    | nil => simpa [deserialize_loop] using h
    | cons x xs => simp [deserialize_loop] at h
  | succ f ih =>
    intro b a r h
    cases b with
    | nil => simpa [deserialize_loop] using h
    | cons x xs =>
      rw [deserialize_loop] at h
      rw [deserialize_loop]
      cases hv : varintDecode (x :: xs) with
      | none => simp [hv] at h
      | some p =>
        obtain ⟨tag, rest⟩ := p
        simp only [hv] at h ⊢
        by_cases h2 : tag % 8 = 2
        · simp only [h2, reduceIte] at h ⊢
          cases hl : varintDecode rest with
          | none => simp [hl] at h
          | some q =>
            obtain ⟨len, rest2⟩ := q
            simp only [hl] at h ⊢
            by_cases h3 : len ≤ rest2.length
            · simp only [h3, if_true] at h ⊢
              exact ih _ _ _ h
            · simp only [h3, if_false] at h
              exact absurd h (by simp)
        · simp only [h2, if_false] at h ⊢
          by_cases h0 : tag % 8 = 0
          · simp only [h0, reduceIte] at h ⊢
            cases hl : varintDecode rest with
            | none => simp [hl] at h
            | some q =>
              obtain ⟨n, rest2⟩ := q
              simp only [hl] at h ⊢
              exact ih _ _ _ h
          · simp only [h0, if_false] at h
            exact absurd h (by simp)

theorem deserialize_loop_le (f g : Nat) (b : Bytes) (a r : IpnsEntry) (hfg : f ≤ g)
    (h : deserialize_loop f b a = some r) : deserialize_loop g b a = some r := by
  induction g with
  | zero =>
    have hf : f = 0 := by omega
    subst hf; exact h
  | succ g ih =>
    by_cases hfg2 : f = g + 1
    · subst hfg2; exact h
    · exact deserialize_loop_mono g b a r (ih (by omega))

theorem deserialize_loop_bytes (f i : Nat) (b rest : Bytes) (acc r : IpnsEntry)
    (hi : i * 8 + 2 < 128) (hemp : setBytesField acc i [] = acc)
    (h : deserialize_loop f rest (setBytesField acc i b) = some r) :
    deserialize_loop (f + 1) (pbBytesField i b ++ rest) acc = some r := by
  by_cases hb : b = []
  · subst hb
    rw [pbBytesField, if_pos rfl, List.nil_append, hemp] at *
    exact deserialize_loop_mono f rest acc r h
  · rw [pbBytesField, if_neg hb]
    have htag : varintEncode (i * 8 + 2) = [i * 8 + 2] := varintEncode_small _ hi
    rw [htag]
    simp only [List.append_assoc, List.cons_append, List.nil_append]
    rw [deserialize_loop]
    have hv : varintDecode ((i * 8 + 2) :: (varintEncode b.length ++ (b ++ rest)))
        = some (i * 8 + 2, varintEncode b.length ++ (b ++ rest)) := by
      rw [varintDecode]; simp [hi]
    simp only [hv]
    have hm2 : (i * 8 + 2) % 8 = 2 := by omega
    have hd2 : (i * 8 + 2) / 8 = i := by omega
    simp only [hm2, hd2, reduceIte, varintDecode_encode]
    have hle : b.length ≤ (b ++ rest).length := by simp
    simp only [hle, if_true, List.take_left, List.drop_left]
    exact h

theorem deserialize_loop_varint (f i n : Nat) (rest : Bytes) (acc r : IpnsEntry)
    (hi : i * 8 < 128) (hemp : setVarintField acc i 0 = acc)
    (h : deserialize_loop f rest (setVarintField acc i n) = some r) :
    deserialize_loop (f + 1) (pbVarintField i n ++ rest) acc = some r := by
  by_cases hn : n = 0
  · subst hn
    rw [pbVarintField, if_pos rfl, List.nil_append, hemp] at *
    exact deserialize_loop_mono f rest acc r h
  · rw [pbVarintField, if_neg hn]
    have htag : varintEncode (i * 8) = [i * 8] := varintEncode_small _ hi
    rw [htag]
    simp only [List.append_assoc, List.cons_append, List.nil_append]
    rw [deserialize_loop]
    have hv : varintDecode ((i * 8) :: (varintEncode n ++ rest))
        = some (i * 8, varintEncode n ++ rest) := by
      rw [varintDecode]; simp [hi]
    simp only [hv]
    have hm2 : ¬((i * 8) % 8 = 2) := by omega
    have hm0 : (i * 8) % 8 = 0 := by omega
    have hd : (i * 8) / 8 = i := by omega
    simp only [hm2, hm0, hd, if_false, reduceIte, varintDecode_encode]
    exact h

/-- Protobuf decoding inverts encoding for any entry whose `validity_type`
fits in `i32` (the other fields have no side condition: varints are total). -/
theorem deserialize_serialize_ipns_entry (e : IpnsEntry)
    (hvt1 : -2147483648 ≤ e.validity_type) (hvt2 : e.validity_type < 2147483648) :
    deserialize_ipns_entry (serialize_ipns_entry e) = some e := by
  obtain ⟨v, sg, vt, va, sq, tt, pk, s2, da⟩ := e
  simp only at hvt1 hvt2
  rw [deserialize_ipns_entry]
  apply deserialize_loop_le 9 _ _ _ _ (by omega)
  rw [show serialize_ipns_entry ⟨v, sg, vt, va, sq, tt, pk, s2, da⟩
      = serialize_ipns_entry ⟨v, sg, vt, va, sq, tt, pk, s2, da⟩ ++ []
      from (List.append_nil _).symm]
  rw [serialize_ipns_entry]
  simp only [List.append_assoc]
  refine deserialize_loop_bytes 8 1 v _ IpnsEntry.default _ (by decide) rfl ?_
  refine deserialize_loop_bytes 7 2 sg _ _ _ (by decide) rfl ?_
  refine deserialize_loop_varint 6 3 (i64AsU64 vt) _ _ _ (by decide) rfl ?_
  refine deserialize_loop_bytes 5 4 va _ _ _ (by decide) rfl ?_
  refine deserialize_loop_varint 4 5 sq _ _ _ (by decide) rfl ?_
  refine deserialize_loop_varint 3 6 tt _ _ _ (by decide) rfl ?_
  refine deserialize_loop_bytes 2 7 pk _ _ _ (by decide) rfl ?_
  refine deserialize_loop_bytes 1 8 s2 _ _ _ (by decide) rfl ?_
  refine deserialize_loop_bytes 0 9 da _ _ _ (by decide) rfl ?_
  rw [deserialize_loop]
  simp [setBytesField, setVarintField, IpnsEntry.default, u64AsI32_i64AsU64 vt hvt1 hvt2]

/- ### Codec-level helper lemmas -/

theorem entry_data_ne_nil (E : Externals) (r : Revision) : entry_data E r ≠ [] := by
  rw [entry_data, v2_signature_data, cborEncodeSigData]
  have h55 : cborHead 5 5 = [165] := by decide
  rw [h55]
  simp

theorem entry_ttl_lt (r : Revision) : entry_ttl r < u64Size := by
  rw [entry_ttl, i64AsU64, u64Size]
  have h1 := Int.emod_nonneg ((num_nanoseconds r.ttl).getD i64MaxInt)
    (by norm_num : (18446744073709551616 : Int) ≠ 0)
  have h2 := Int.emod_lt_of_pos ((num_nanoseconds r.ttl).getD i64MaxInt)
    (by norm_num : (0 : Int) < 18446744073709551616)
  omega

theorem cborDecode_entry_data (E : Externals) (r : Revision)
    (hv : r.value.length < u64Size) (hva : (E.formatRfc3339 r.validity).length < u64Size)
    (hs : r.sequence < u64Size) :
    cborDecodeSigData (entry_data E r)
      = some ⟨r.value, E.formatRfc3339 r.validity, 0, r.sequence, entry_ttl r⟩ := by
  rw [entry_data, v2_signature_data]
  exact cborDecodeSigData_encode _ hv hva
    (show (0 : Nat) < u64Size by rw [u64Size]; omega) hs (entry_ttl_lt r)

theorem isV2Only_built (E : Externals) (r : Revision) (k : Bytes) :
    isV2Only (builtEntry E r k) = true :=
  decide_eq_true ⟨rfl, rfl, rfl, rfl⟩

theorem validate_v2_data_matches_cases (e : IpnsEntry) :
    validate_v2_data_matches_entry_data e = Except.ok ()
      ∨ validate_v2_data_matches_entry_data e = Except.error .invalidV2Data := by
  rw [validate_v2_data_matches_entry_data]
  split
  · exact Or.inr rfl
  · split
    · exact Or.inr rfl
    · split
      · exact Or.inl rfl
      · split
        · exact Or.inr rfl
        · exact Or.inl rfl

theorem matches_built (E : Externals) (r : Revision) (k : Bytes)
    (hv : r.value.length < u64Size) (hva : (E.formatRfc3339 r.validity).length < u64Size)
    (hs : r.sequence < u64Size) :
    validate_v2_data_matches_entry_data (builtEntry E r k) = Except.ok () := by
  rw [validate_v2_data_matches_entry_data,
    if_neg (show ¬((builtEntry E r k).data = []) from entry_data_ne_nil E r)]
  have hd : cborDecodeSigData (builtEntry E r k).data
      = some ⟨r.value, E.formatRfc3339 r.validity, 0, r.sequence, entry_ttl r⟩ :=
    cborDecode_entry_data E r hv hva hs
  rw [hd]
  simp [isV2Only_built E r k]

/- ### Claim theorems -/

/-- C7: the CBOR signature-payload encoder is deterministic (it is a pure
function of its four inputs) and for every (value, validity, sequence, ttl)
emits a definite-length five-entry map (head byte `0xA5`) with text keys
`Value`, `Validity`, `ValidityType`, `Sequence`, `TTL` in that order, where
`Value` and `Validity` are CBOR byte strings (major type 2) and
`ValidityType`, `Sequence`, `TTL` are unsigned integers (major type 0) with
`ValidityType` fixed at 0 (the single byte `0x00`). -/
theorem c7_cbor_encoder_shape (v va : Bytes) (s t : Nat) :
    v2_signature_data v va s t =
      [165, 101, 86, 97, 108, 117, 101] ++ (cborHead 2 v.length ++ (v
        ++ ([104, 86, 97, 108, 105, 100, 105, 116, 121] ++ (cborHead 2 va.length ++ (va
        ++ ([108, 86, 97, 108, 105, 100, 105, 116, 121, 84, 121, 112, 101, 0]
        ++ ([104, 83, 101, 113, 117, 101, 110, 99, 101] ++ (cborHead 0 s
        ++ ([99, 84, 84, 76] ++ cborHead 0 t))))))))) := by
  have h55 : cborHead 5 5 = [165] := by decide
  have hk1 : cborKey keyValue = [101, 86, 97, 108, 117, 101] := by decide
  have hk2 : cborKey keyValidity = [104, 86, 97, 108, 105, 100, 105, 116, 121] := by decide
  have hk3 : cborKey keyValidityType
      = [108, 86, 97, 108, 105, 100, 105, 116, 121, 84, 121, 112, 101] := by decide
  have hk4 : cborKey keySequence = [104, 83, 101, 113, 117, 101, 110, 99, 101] := by decide
  have hk5 : cborKey keyTTL = [99, 84, 84, 76] := by decide
  have h00 : cborHead 0 0 = [0] := by decide
  rw [v2_signature_data, cborEncodeSigData]
  simp only [cborBstr, cborUint]
  rw [h55, hk1, hk2, hk3, hk4, hk5, h00]
  simp [List.append_assoc]

/-- C2: the entry built from any revision and signing keypair is v2-only —
`signature_v2` (given that the external signer emits non-empty signatures, as
Ed25519 does) and `data` are non-empty, while `value`, `validity` and
`signature` are empty, `validity_type`, `sequence` and `ttl` are zero, and the
remaining field `pub_key` is empty: the protobuf default state. -/
theorem c2_built_entry_v2_only (E : Externals) (r : Revision) (k : Bytes)
    (hsig : E.sign k (ipnsSigTag ++ entry_data E r) ≠ []) :
    ∀ e, revision_to_ipns_entry E r k = Except.ok e →
      e.signature_v2 ≠ [] ∧ e.data ≠ [] ∧
      e.value = [] ∧ e.validity = [] ∧ e.signature = [] ∧
      e.validity_type = 0 ∧ e.sequence = 0 ∧ e.ttl = 0 ∧ e.pub_key = [] := by
  intro e he
  rw [revision_to_ipns_entry] at he
  injection he with he
  subst he
  exact ⟨hsig, entry_data_ne_nil E r, rfl, rfl, rfl, rfl, rfl, rfl, rfl⟩

/-- Witness for C2 at a concrete revision, key and external instantiation. -/
theorem c2_built_entry_v2_only_witness :
    (builtEntry toyExternals cRev cKey).signature_v2 ≠ [] ∧
    (builtEntry toyExternals cRev cKey).data ≠ [] ∧
    (builtEntry toyExternals cRev cKey).value = [] ∧
    (builtEntry toyExternals cRev cKey).validity = [] ∧
    (builtEntry toyExternals cRev cKey).signature = [] ∧
    (builtEntry toyExternals cRev cKey).validity_type = 0 ∧
    (builtEntry toyExternals cRev cKey).sequence = 0 ∧
    (builtEntry toyExternals cRev cKey).ttl = 0 ∧
    (builtEntry toyExternals cRev cKey).pub_key = [] :=
  c2_built_entry_v2_only toyExternals cRev cKey (by decide)
    (builtEntry toyExternals cRev cKey) rfl

/-- C10: when the revision's ttl duration exceeds `i64::MAX` nanoseconds,
`revision_to_ipns_entry` does not fail: `num_nanoseconds` yields `None`,
`unwrap_or(i64::MAX)` saturates, and the encoded payload TTL is `i64::MAX`. -/
theorem c10_ttl_saturation (E : Externals) (r : Revision) (k : Bytes)
    (h : i64MaxInt < r.ttl) :
    revision_to_ipns_entry E r k = Except.ok (builtEntry E r k) ∧
    (builtEntry E r k).data
      = v2_signature_data r.value (E.formatRfc3339 r.validity) r.sequence i64MaxNat := by
  have hcond : ¬(i64MinInt ≤ r.ttl ∧ r.ttl ≤ i64MaxInt) := by
    rintro ⟨-, hc⟩
    omega
  have h1 : num_nanoseconds r.ttl = none := by rw [num_nanoseconds, if_neg hcond]
  have h2 : entry_ttl r = i64MaxNat := by
    rw [entry_ttl, h1]
    decide
  refine ⟨rfl, ?_⟩
  show entry_data E r = _
  rw [entry_data, h2]

/-- Witness for C10: a concrete revision with ttl `2^63` ns saturates to
`i64::MAX`. -/
theorem c10_ttl_saturation_witness :
    revision_to_ipns_entry toyExternals cRevBig10 [3]
        = Except.ok (builtEntry toyExternals cRevBig10 [3]) ∧
    (builtEntry toyExternals cRevBig10 [3]).data
      = v2_signature_data cRevBig10.value (toyExternals.formatRfc3339 cRevBig10.validity)
          cRevBig10.sequence i64MaxNat :=
  c10_ttl_saturation toyExternals cRevBig10 [3] (by decide)

/-- C9: the CLI resolve command exits 0 and prints `no record found for key
<name>` to stderr when the client reports an `APIError` with status 404; any
other resolve failure (other client errors, or a name-parse failure) exits
1. -/
theorem c9_resolve_404 (nm : Bytes) (ns msg : String) (res : Except ClientError Revision) :
    cli_resolve (some nm) (Except.error (.api 404 msg)) ns
        = ⟨0, [], ["no record found for key " ++ ns]⟩ ∧
    (∀ err, is_404 err = false →
      cli_resolve (some nm) (Except.error err) ns = ⟨1, [], []⟩) ∧
    cli_resolve none res ns = ⟨1, [], []⟩ := by
  refine ⟨?_, ?_, rfl⟩
  · rw [cli_resolve]
    simp [is_404]
  · intro err herr
    rw [cli_resolve]
    simp [herr]

/-- Witness for C9 at a concrete name and concrete client results. -/
theorem c9_resolve_404_witness :
    cli_resolve (some [0]) (Except.error (.api 404 "not found")) "k51q"
        = ⟨0, [], ["no record found for key " ++ "k51q"]⟩ ∧
    cli_resolve (some [0]) (Except.error .transport) "k51q" = ⟨1, [], []⟩ :=
  ⟨(c9_resolve_404 [0] "k51q" "not found" (Except.error .transport)).1,
    (c9_resolve_404 [0] "k51q" "not found" (Except.error .transport)).2.1 .transport rfl⟩

/-- C6: for entries with non-empty `signature_v2` and `data`, validation
checks `signature_v2` against the message formed by the literal 15-byte ASCII
tag `"ipns-signature:"` (bytes 105 112 110 115 45 115 105 103 110 97 116 117
114 101 58) concatenated with the `data` bytes exactly as received, under the
supplied public key, and the result is `InvalidV2Signature` exactly when that
verification fails. -/
theorem c6_v2_signature_framing (E : Externals) (e : IpnsEntry) (pk : Bytes)
    (h1 : e.signature_v2 ≠ []) (h2 : e.data ≠ []) :
    ipnsSigTag = [105, 112, 110, 115, 45, 115, 105, 103, 110, 97, 116, 117, 114, 101, 58] ∧
    ipnsSigTag.length = 15 ∧
    (validate_ipns_entry E e pk = Except.error .invalidV2Signature ↔
      E.verify pk (ipnsSigTag ++ e.data) e.signature_v2 = false) := by
  refine ⟨rfl, rfl, ?_⟩
  rw [validate_ipns_entry, if_pos ⟨h1, h2⟩]
  cases hv : E.verify pk (ipnsSigTag ++ e.data) e.signature_v2 with
  | false =>
    have hs : validate_v2_signature E pk e.signature_v2 e.data
        = Except.error .invalidV2Signature := by
      rw [validate_v2_signature, if_neg]
      simp [hv]
    rw [hs]
    simp
  | true =>
    have hs : validate_v2_signature E pk e.signature_v2 e.data = Except.ok () := by
      rw [validate_v2_signature, if_pos hv]
    rw [hs]
    rcases validate_v2_data_matches_cases e with hc | hc <;> simp [hc]

/-- Witness for C6 at a concrete entry whose toy verification fails. -/
theorem c6_v2_signature_framing_witness :
    ipnsSigTag = [105, 112, 110, 115, 45, 115, 105, 103, 110, 97, 116, 117, 114, 101, 58] ∧
    ipnsSigTag.length = 15 ∧
    (validate_ipns_entry toyExternals cEntry6 [4] = Except.error .invalidV2Signature ↔
      toyExternals.verify [4] (ipnsSigTag ++ cEntry6.data) cEntry6.signature_v2 = false) :=
  c6_v2_signature_framing toyExternals cEntry6 [4] (by decide) (by decide)

/-- C8: projecting an entry to a revision fails (with the opaque `IpnsError`)
whenever the TTL exceeds `i64::MAX`: in the CBOR branch when the decoded
payload's `TTL` does, and in the v1 branch when the entry's `ttl` field does —
both go through `i64::try_from`, which rejects such values. -/
theorem c8_ttl_overflow_rejected (E : Externals) (e : IpnsEntry) (name : Bytes) :
    (∀ d, e.data ≠ [] → cborDecodeSigData e.data = some d → i64MaxNat < d.TTL →
      revision_from_ipns_entry E e name = Except.error .mk) ∧
    (e.data = [] → i64MaxNat < e.ttl →
      revision_from_ipns_entry E e name = Except.error .mk) := by
  constructor
  · intro d hne hd httl
    rw [revision_from_ipns_entry, if_pos hne, hd]
    have htry : tryIntoI64 d.TTL = none := by
      rw [tryIntoI64, if_neg (by omega)]
    cases hu : E.fromUtf8 d.Value with
    | none => simp [hu]
    | some v =>
      cases hp : E.parseRfc3339 d.Validity with
      | none => simp [hu, hp]
      | some t => simp [hu, hp, htry]
  · intro hnil httl
    rw [revision_from_ipns_entry, if_neg (by simp [hnil])]
    have htry : tryIntoI64 e.ttl = none := by
      rw [tryIntoI64, if_neg (by omega)]
    cases hu : E.fromUtf8 e.value with
    | none => simp [hu]
    | some v =>
      cases hp : E.parseRfc3339 e.validity with
      | none => simp [hu, hp]
      | some t => simp [hu, hp, htry]

/-- Witness for C8: concrete entries carrying TTL `2^63` in the CBOR payload
and in the v1 `ttl` field are both rejected. -/
theorem c8_ttl_overflow_rejected_witness :
    revision_from_ipns_entry toyExternals cEntryBigTtl [] = Except.error .mk ∧
    revision_from_ipns_entry toyExternals cEntryBigTtlV1 [] = Except.error .mk :=
  ⟨(c8_ttl_overflow_rejected toyExternals cEntryBigTtl []).1
      ⟨[], [48], 0, 0, 9223372036854775808⟩ (by decide) (by decide) (by decide),
    (c8_ttl_overflow_rejected toyExternals cEntryBigTtlV1 []).2 (by decide) (by decide)⟩

/-- C5 (amended): when reading an entry back into a revision, the CBOR
payload's fields are authoritative exactly when `data` is non-empty —
regardless of `signature_v2` — and only when `data` is empty is the revision
built by v1 interpretation from the top-level protobuf fields. -/
theorem c5_projection_source (E : Externals) (e : IpnsEntry) (name : Bytes) :
    (∀ d v t, e.data ≠ [] → cborDecodeSigData e.data = some d →
      E.fromUtf8 d.Value = some v → E.parseRfc3339 d.Validity = some t →
      d.TTL ≤ i64MaxNat →
      revision_from_ipns_entry E e name
        = Except.ok ⟨name, v, t, d.Sequence, (d.TTL : Int)⟩) ∧
    (∀ v t, e.data = [] →
      E.fromUtf8 e.value = some v → E.parseRfc3339 e.validity = some t →
      e.ttl ≤ i64MaxNat →
      revision_from_ipns_entry E e name
        = Except.ok ⟨name, v, t, e.sequence, (e.ttl : Int)⟩) := by
  constructor
  · intro d v t hne hd hv ht httl
    rw [revision_from_ipns_entry, if_pos hne, hd]
    have htry : tryIntoI64 d.TTL = some (d.TTL : Int) := by
      rw [tryIntoI64, if_pos httl]
    simp [hv, ht, htry]
  · intro v t hnil hv ht httl
    rw [revision_from_ipns_entry, if_neg (by simp [hnil])]
    have htry : tryIntoI64 e.ttl = some (e.ttl : Int) := by
      rw [tryIntoI64, if_pos httl]
    simp [hv, ht, htry]

/-- Counterexample to C5 as stated: `cEntryHybrid` has non-empty `data` and
EMPTY `signature_v2`, so the claim prescribes v1 interpretation (value `[97]`,
sequence 1, ttl 2 from the top-level fields); the code instead projects the
CBOR payload (value `[98]`, sequence 7, ttl 9). -/
theorem c5_projection_source_counterexample :
    cEntryHybrid.signature_v2 = [] ∧ cEntryHybrid.data ≠ [] ∧
    revision_from_ipns_entry toyExternals cEntryHybrid [5]
        = Except.ok ⟨[5], [98], 1, 7, 9⟩ ∧
    revision_from_ipns_entry toyExternals cEntryHybrid [5]
        ≠ Except.ok ⟨[5], [97], 0, 1, 2⟩ := by
  decide

/-- Witness for C5 (amended): both branches evaluated at concrete entries. -/
theorem c5_projection_source_witness :
    revision_from_ipns_entry toyExternals cEntryHybrid [5]
        = Except.ok ⟨[5], [98], 1, 7, 9⟩ ∧
    revision_from_ipns_entry toyExternals cEntryV1 [6]
        = Except.ok ⟨[6], [97], 0, 1, 2⟩ := by
  constructor
  · exact (c5_projection_source toyExternals cEntryHybrid [5]).1
      ⟨[98], [48, 48], 0, 7, 9⟩ [98] 1 (by decide) (by decide) (by decide) (by decide)
      (by decide)
  · exact (c5_projection_source toyExternals cEntryV1 [6]).2 [97] 0 (by decide) (by decide)
      (by decide) (by decide)

/-- C3 (amended): for entries with non-empty `signature_v2` and `data` whose
v2 signature verifies, if the CBOR `data` cannot be parsed as a
`SignatureV2Data` then validate returns `InvalidV2Data` even for v2-only
entries; when it parses, a v2-only entry validates `Ok`, and a non-v2-only
entry fails with `InvalidV2Data` exactly when one of the five pairs disagrees,
where `validity_type` is compared against the payload's `ValidityType` after
the source's wrapping `as i32` cast. -/
theorem c3_v2_consistency (E : Externals) (e : IpnsEntry) (pk : Bytes)
    (h1 : e.signature_v2 ≠ []) (h2 : e.data ≠ [])
    (h3 : E.verify pk (ipnsSigTag ++ e.data) e.signature_v2 = true) :
    (cborDecodeSigData e.data = none →
      validate_ipns_entry E e pk = Except.error .invalidV2Data) ∧
    (∀ d, cborDecodeSigData e.data = some d →
      (isV2Only e = true → validate_ipns_entry E e pk = Except.ok ()) ∧
      (isV2Only e = false →
        (validate_ipns_entry E e pk = Except.error .invalidV2Data ↔
          (e.value ≠ d.Value ∨ e.validity ≠ d.Validity ∨ e.sequence ≠ d.Sequence
            ∨ e.ttl ≠ d.TTL ∨ e.validity_type ≠ u64AsI32 d.ValidityType)))) := by
  have hval : validate_ipns_entry E e pk = validate_v2_data_matches_entry_data e := by
    rw [validate_ipns_entry, if_pos ⟨h1, h2⟩]
    have hs : validate_v2_signature E pk e.signature_v2 e.data = Except.ok () := by
      rw [validate_v2_signature, if_pos h3]
    rw [hs]
  rw [hval]
  refine ⟨?_, ?_⟩
  · intro hnone
    rw [validate_v2_data_matches_entry_data, if_neg h2, hnone]
  · intro d hd
    refine ⟨?_, ?_⟩
    · intro hv2
      rw [validate_v2_data_matches_entry_data, if_neg h2, hd]
      simp [hv2]
    · intro hv2
      rw [validate_v2_data_matches_entry_data, if_neg h2, hd]
      by_cases hm : e.value ≠ d.Value ∨ e.validity ≠ d.Validity ∨ e.sequence ≠ d.Sequence
          ∨ e.ttl ≠ d.TTL ∨ e.validity_type ≠ u64AsI32 d.ValidityType
      · simp [hv2, hm]
      · simp [hv2, hm]

/-- Counterexample to C3 as stated: `cEntryGarbage` is v2-only, its signature
verifies over its (non-empty) `data`, yet validate is not `Ok` — the CBOR is
unparseable and the code reports `InvalidV2Data` before the v2-only skip. -/
theorem c3_v2_consistency_counterexample :
    cEntryGarbage.signature_v2 ≠ [] ∧ cEntryGarbage.data ≠ [] ∧
    toyExternals.verify [] (ipnsSigTag ++ cEntryGarbage.data)
      cEntryGarbage.signature_v2 = true ∧
    isV2Only cEntryGarbage = true ∧
    validate_ipns_entry toyExternals cEntryGarbage [] ≠ Except.ok () := by
  decide

/-- Witness for C3 (amended) at the wrap entry: all five pairs agree under the
`as i32` cast (ValidityType `2^32` wraps to `0`), so validation succeeds. -/
theorem c3_v2_consistency_witness :
    (validate_ipns_entry toyExternals cEntryWrap [] = Except.error .invalidV2Data ↔
      (cEntryWrap.value ≠ [98] ∨ cEntryWrap.validity ≠ [48, 48] ∨ cEntryWrap.sequence ≠ 7
        ∨ cEntryWrap.ttl ≠ 9 ∨ cEntryWrap.validity_type ≠ u64AsI32 4294967296)) :=
  ((c3_v2_consistency toyExternals cEntryWrap [] (by decide) (by decide) (by decide)).2
      ⟨[98], [48, 48], 4294967296, 7, 9⟩ (by decide)).2 (by decide)

/-- C4 (amended, in the ideal-signature model `toyExternals`): for every entry
built as v2-only, changing `signature_v2` or `data` (to any other non-empty
value — in particular by any bit flip) makes validation fail with
`InvalidV2Signature`; but flipping bits of the top-level `sequence` or `ttl`
(making them non-zero) ALSO makes validation fail — with `InvalidV2Data`,
because the entry stops being v2-only and the hybrid consistency check fires —
while `validity_type` is not part of the v2-only test, so changing it alone
leaves validation succeeding; `value`, `validity` and `signature` are empty in
a v2-only entry, so they contain no bits to flip. -/
theorem c4_tamper_rejection (r : Revision) (k : Bytes)
    (hs : r.sequence < u64Size) (hv : r.value.length < u64Size)
    (hva : (toyExternals.formatRfc3339 r.validity).length < u64Size) :
    (∀ s2, s2 ≠ (builtEntry toyExternals r k).signature_v2 → s2 ≠ [] →
      validate_ipns_entry toyExternals
          { builtEntry toyExternals r k with signature_v2 := s2 }
          (toyExternals.pubOf k) = Except.error .invalidV2Signature) ∧
    (∀ d, d ≠ (builtEntry toyExternals r k).data → d ≠ [] →
      validate_ipns_entry toyExternals { builtEntry toyExternals r k with data := d }
          (toyExternals.pubOf k) = Except.error .invalidV2Signature) ∧
    (∀ n, n ≠ 0 →
      validate_ipns_entry toyExternals { builtEntry toyExternals r k with sequence := n }
          (toyExternals.pubOf k) = Except.error .invalidV2Data) ∧
    (∀ n, n ≠ 0 →
      validate_ipns_entry toyExternals { builtEntry toyExternals r k with ttl := n }
          (toyExternals.pubOf k) = Except.error .invalidV2Data) ∧
    (∀ vt, validate_ipns_entry toyExternals
        { builtEntry toyExternals r k with validity_type := vt }
        (toyExternals.pubOf k) = Except.ok ()) := by
  have hsig2 : (builtEntry toyExternals r k).signature_v2 ≠ [] := by
    show k ++ (ipnsSigTag ++ entry_data toyExternals r) ≠ []
    simp [ipnsSigTag]
  have hvne : ([] : Bytes) ≠ toyExternals.formatRfc3339 r.validity := by
    show ([] : Bytes) ≠ List.replicate (r.validity.toNat + 1) 48
    simp [List.replicate_succ]
  have hvne2 : (builtEntry toyExternals r k).validity
      ≠ toyExternals.formatRfc3339 r.validity := hvne
  refine ⟨?_, ?_, ?_, ?_, ?_⟩
  · intro s2 hne hnil
    rw [validate_ipns_entry,
      if_pos (show ({ builtEntry toyExternals r k with signature_v2 := s2 }
          : IpnsEntry).signature_v2 ≠ []
        ∧ ({ builtEntry toyExternals r k with signature_v2 := s2 } : IpnsEntry).data ≠ []
        from ⟨hnil, entry_data_ne_nil toyExternals r⟩)]
    have hver : validate_v2_signature toyExternals (toyExternals.pubOf k)
        ({ builtEntry toyExternals r k with signature_v2 := s2 } : IpnsEntry).signature_v2
        ({ builtEntry toyExternals r k with signature_v2 := s2 } : IpnsEntry).data
        = Except.error .invalidV2Signature := by
      rw [validate_v2_signature, if_neg]
      intro hc
      exact hne (of_decide_eq_true hc)
    rw [hver]
  · intro d hne hnil
    rw [validate_ipns_entry,
      if_pos (show ({ builtEntry toyExternals r k with data := d }
          : IpnsEntry).signature_v2 ≠ []
        ∧ ({ builtEntry toyExternals r k with data := d } : IpnsEntry).data ≠ []
        from ⟨hsig2, hnil⟩)]
    have hver : validate_v2_signature toyExternals (toyExternals.pubOf k)
        ({ builtEntry toyExternals r k with data := d } : IpnsEntry).signature_v2
        ({ builtEntry toyExternals r k with data := d } : IpnsEntry).data
        = Except.error .invalidV2Signature := by
      rw [validate_v2_signature, if_neg]
      intro hc
      have heq : k ++ (ipnsSigTag ++ entry_data toyExternals r)
          = k ++ (ipnsSigTag ++ d) := of_decide_eq_true hc
      have h2 := List.append_cancel_left heq
      have h3 := List.append_cancel_left h2
      exact hne h3.symm
    rw [hver]
  · intro n hn
    rw [validate_ipns_entry,
      if_pos (show ({ builtEntry toyExternals r k with sequence := n }
          : IpnsEntry).signature_v2 ≠ []
        ∧ ({ builtEntry toyExternals r k with sequence := n } : IpnsEntry).data ≠ []
        from ⟨hsig2, entry_data_ne_nil toyExternals r⟩)]
    have hver : validate_v2_signature toyExternals (toyExternals.pubOf k)
        ({ builtEntry toyExternals r k with sequence := n } : IpnsEntry).signature_v2
        ({ builtEntry toyExternals r k with sequence := n } : IpnsEntry).data
        = Except.ok () := by
      have hcond : toyExternals.verify (toyExternals.pubOf k)
          (ipnsSigTag ++ ({ builtEntry toyExternals r k with sequence := n } : IpnsEntry).data)
          ({ builtEntry toyExternals r k with sequence := n } : IpnsEntry).signature_v2 = true :=
        decide_eq_true rfl
      rw [validate_v2_signature, if_pos hcond]
    rw [hver]
    have hdec : cborDecodeSigData
        ({ builtEntry toyExternals r k with sequence := n } : IpnsEntry).data
        = some ⟨r.value, toyExternals.formatRfc3339 r.validity, 0, r.sequence, entry_ttl r⟩ :=
      cborDecode_entry_data toyExternals r hv hva hs
    rw [validate_v2_data_matches_entry_data,
      if_neg (show ¬(({ builtEntry toyExternals r k with sequence := n }
          : IpnsEntry).data = []) from entry_data_ne_nil toyExternals r), hdec]
    have hv2 : isV2Only { builtEntry toyExternals r k with sequence := n } = false := by
      rw [isV2Only]
      apply decide_eq_false
      rintro ⟨-, -, -, hseq0⟩
      exact hn hseq0
    simp only [hv2, Bool.false_eq_true, if_false]
    exact if_pos (Or.inr (Or.inl hvne2))
  · intro n hn
    rw [validate_ipns_entry,
      if_pos (show ({ builtEntry toyExternals r k with ttl := n }
          : IpnsEntry).signature_v2 ≠ []
        ∧ ({ builtEntry toyExternals r k with ttl := n } : IpnsEntry).data ≠ []
        from ⟨hsig2, entry_data_ne_nil toyExternals r⟩)]
    have hver : validate_v2_signature toyExternals (toyExternals.pubOf k)
        ({ builtEntry toyExternals r k with ttl := n } : IpnsEntry).signature_v2
        ({ builtEntry toyExternals r k with ttl := n } : IpnsEntry).data
        = Except.ok () := by
      have hcond : toyExternals.verify (toyExternals.pubOf k)
          (ipnsSigTag ++ ({ builtEntry toyExternals r k with ttl := n } : IpnsEntry).data)
          ({ builtEntry toyExternals r k with ttl := n } : IpnsEntry).signature_v2 = true :=
        decide_eq_true rfl
      rw [validate_v2_signature, if_pos hcond]
    rw [hver]
    have hdec : cborDecodeSigData
        ({ builtEntry toyExternals r k with ttl := n } : IpnsEntry).data
        = some ⟨r.value, toyExternals.formatRfc3339 r.validity, 0, r.sequence, entry_ttl r⟩ :=
      cborDecode_entry_data toyExternals r hv hva hs
    rw [validate_v2_data_matches_entry_data,
      if_neg (show ¬(({ builtEntry toyExternals r k with ttl := n }
          : IpnsEntry).data = []) from entry_data_ne_nil toyExternals r), hdec]
    have hv2 : isV2Only { builtEntry toyExternals r k with ttl := n } = false := by
      rw [isV2Only]
      apply decide_eq_false
      rintro ⟨-, -, httl0, -⟩
      exact hn httl0
    simp only [hv2, Bool.false_eq_true, if_false]
    exact if_pos (Or.inr (Or.inl hvne2))
  · intro vt
    rw [validate_ipns_entry,
      if_pos (show ({ builtEntry toyExternals r k with validity_type := vt }
          : IpnsEntry).signature_v2 ≠ []
        ∧ ({ builtEntry toyExternals r k with validity_type := vt } : IpnsEntry).data ≠ []
        from ⟨hsig2, entry_data_ne_nil toyExternals r⟩)]
    have hver : validate_v2_signature toyExternals (toyExternals.pubOf k)
        ({ builtEntry toyExternals r k with validity_type := vt } : IpnsEntry).signature_v2
        ({ builtEntry toyExternals r k with validity_type := vt } : IpnsEntry).data
        = Except.ok () := by
      have hcond : toyExternals.verify (toyExternals.pubOf k)
          (ipnsSigTag ++ ({ builtEntry toyExternals r k with validity_type := vt } : IpnsEntry).data)
          ({ builtEntry toyExternals r k with validity_type := vt } : IpnsEntry).signature_v2 = true :=
        decide_eq_true rfl
      rw [validate_v2_signature, if_pos hcond]
    rw [hver]
    have hdec : cborDecodeSigData
        ({ builtEntry toyExternals r k with validity_type := vt } : IpnsEntry).data
        = some ⟨r.value, toyExternals.formatRfc3339 r.validity, 0, r.sequence, entry_ttl r⟩ :=
      cborDecode_entry_data toyExternals r hv hva hs
    rw [validate_v2_data_matches_entry_data,
      if_neg (show ¬(({ builtEntry toyExternals r k with validity_type := vt }
          : IpnsEntry).data = []) from entry_data_ne_nil toyExternals r), hdec]
    have hv2 : isV2Only { builtEntry toyExternals r k with validity_type := vt } = true :=
      decide_eq_true ⟨rfl, rfl, rfl, rfl⟩
    simp only [hv2, if_true]

/-- Counterexample to C4 as stated: the v2-only entry built from `cRev4`
validates, but flipping the lowest bit of the top-level `ttl` (0 to 1) makes
validation fail with `InvalidV2Data` — the claim said bit flips in top-level
protobuf fields do not cause validation failure. -/
theorem c4_tamper_rejection_counterexample :
    validate_ipns_entry toyExternals (builtEntry toyExternals cRev4 cKey4)
        (toyExternals.pubOf cKey4) = Except.ok () ∧
    validate_ipns_entry toyExternals { builtEntry toyExternals cRev4 cKey4 with ttl := 1 }
        (toyExternals.pubOf cKey4) = Except.error .invalidV2Data := by
  decide

/-- Witness for C4 (amended) at concrete tampered entries. -/
theorem c4_tamper_rejection_witness :
    validate_ipns_entry toyExternals
        { builtEntry toyExternals cRev cKey with signature_v2 := [9] }
        (toyExternals.pubOf cKey) = Except.error .invalidV2Signature ∧
    validate_ipns_entry toyExternals
        { builtEntry toyExternals cRev cKey with data := [9] }
        (toyExternals.pubOf cKey) = Except.error .invalidV2Signature ∧
    validate_ipns_entry toyExternals
        { builtEntry toyExternals cRev cKey with sequence := 1 }
        (toyExternals.pubOf cKey) = Except.error .invalidV2Data ∧
    validate_ipns_entry toyExternals
        { builtEntry toyExternals cRev cKey with ttl := 2 }
        (toyExternals.pubOf cKey) = Except.error .invalidV2Data ∧
    validate_ipns_entry toyExternals
        { builtEntry toyExternals cRev cKey with validity_type := 5 }
        (toyExternals.pubOf cKey) = Except.ok () :=
  ⟨(c4_tamper_rejection cRev cKey (by decide) (by decide) (by decide)).1 [9]
      (by decide) (by decide),
    (c4_tamper_rejection cRev cKey (by decide) (by decide) (by decide)).2.1 [9]
      (by decide) (by decide),
    (c4_tamper_rejection cRev cKey (by decide) (by decide) (by decide)).2.2.1 1 (by decide),
    (c4_tamper_rejection cRev cKey (by decide) (by decide) (by decide)).2.2.2.1 2 (by decide),
    (c4_tamper_rejection cRev cKey (by decide) (by decide) (by decide)).2.2.2.2 5⟩

/-- C1 (amended): for every revision whose ttl lies in `[0, i64::MAX]`
nanoseconds (and whose fields respect their machine ranges) and every keypair,
building the entry, serializing, deserializing, validating against the
public key (which succeeds) and projecting back with the revision's name
returns the revision unchanged in every field. The external collaborators are
constrained only by their contracts: UTF-8 validation accepts the value
bytes, RFC-3339 parsing inverts formatting, and verification accepts the
signer's signature. -/
theorem c1_round_trip (E : Externals) (r : Revision) (k : Bytes)
    (hseq : r.sequence < u64Size)
    (hvlen : r.value.length < u64Size)
    (hvalen : (E.formatRfc3339 r.validity).length < u64Size)
    (httl0 : 0 ≤ r.ttl) (httl1 : r.ttl ≤ i64MaxInt)
    (hutf : E.fromUtf8 r.value = some r.value)
    (hpar : E.parseRfc3339 (E.formatRfc3339 r.validity) = some r.validity)
    (hver : E.verify (E.pubOf k) (ipnsSigTag ++ entry_data E r)
        (E.sign k (ipnsSigTag ++ entry_data E r)) = true)
    (hsig : E.sign k (ipnsSigTag ++ entry_data E r) ≠ []) :
    ∀ e, revision_to_ipns_entry E r k = Except.ok e →
      deserialize_ipns_entry (serialize_ipns_entry e) = some e ∧
      validate_ipns_entry E e (E.pubOf k) = Except.ok () ∧
      revision_from_ipns_entry E e r.name = Except.ok r := by
  intro e he
  rw [revision_to_ipns_entry] at he
  injection he with he
  subst he
  refine ⟨?_, ?_, ?_⟩
  · exact deserialize_serialize_ipns_entry (builtEntry E r k)
      (show (-2147483648 : Int) ≤ 0 by norm_num)
      (show (0 : Int) < 2147483648 by norm_num)
  · rw [validate_ipns_entry,
      if_pos (show (builtEntry E r k).signature_v2 ≠ [] ∧ (builtEntry E r k).data ≠ []
        from ⟨hsig, entry_data_ne_nil E r⟩)]
    have hs : validate_v2_signature E (E.pubOf k) (builtEntry E r k).signature_v2
        (builtEntry E r k).data = Except.ok () := by
      rw [validate_v2_signature,
        if_pos (show E.verify (E.pubOf k) (ipnsSigTag ++ (builtEntry E r k).data)
            (builtEntry E r k).signature_v2 = true from hver)]
    rw [hs]
    exact matches_built E r k hvlen hvalen hseq
  · rw [revision_from_ipns_entry,
      if_pos (show (builtEntry E r k).data ≠ [] from entry_data_ne_nil E r)]
    have hdec : cborDecodeSigData (builtEntry E r k).data
        = some ⟨r.value, E.formatRfc3339 r.validity, 0, r.sequence, entry_ttl r⟩ :=
      cborDecode_entry_data E r hvlen hvalen hseq
    rw [hdec]
    have httlv : entry_ttl r = r.ttl.toNat := by
      have hmin : i64MinInt ≤ r.ttl := by rw [i64MinInt]; omega
      rw [entry_ttl, num_nanoseconds, if_pos ⟨hmin, httl1⟩, Option.getD_some, i64AsU64]
      have hlt : r.ttl < 18446744073709551616 := by rw [i64MaxInt] at httl1; omega
      rw [Int.emod_eq_of_lt httl0 hlt]
    have htry : tryIntoI64 (entry_ttl r) = some r.ttl := by
      rw [httlv, tryIntoI64, if_pos (by rw [i64MaxNat]; rw [i64MaxInt] at httl1; omega)]
      rw [Int.toNat_of_nonneg httl0]
    simp [hutf, hpar, htry]

/-- Counterexample to C1 as stated: for `cRevBig` (ttl `2^63` ns, one above
`i64::MAX`) the built entry validates and serialization round-trips, yet the
projected revision differs from the original — its ttl was saturated. -/
theorem c1_round_trip_counterexample :
    validate_ipns_entry toyExternals (builtEntry toyExternals cRevBig [])
        (toyExternals.pubOf []) = Except.ok () ∧
    deserialize_ipns_entry (serialize_ipns_entry (builtEntry toyExternals cRevBig []))
        = some (builtEntry toyExternals cRevBig []) ∧
    revision_from_ipns_entry toyExternals (builtEntry toyExternals cRevBig [])
        cRevBig.name ≠ Except.ok cRevBig := by
  decide

/-- Witness for C1 (amended) at a concrete revision, key and external
instantiation. -/
theorem c1_round_trip_witness :
    deserialize_ipns_entry (serialize_ipns_entry (builtEntry toyExternals cRev cKey))
        = some (builtEntry toyExternals cRev cKey) ∧
    validate_ipns_entry toyExternals (builtEntry toyExternals cRev cKey)
        (toyExternals.pubOf cKey) = Except.ok () ∧
    revision_from_ipns_entry toyExternals (builtEntry toyExternals cRev cKey)
        cRev.name = Except.ok cRev :=
  c1_round_trip toyExternals cRev cKey (by decide) (by decide) (by decide) (by decide)
    (by decide) (by decide) (by decide) (by decide) (by decide)
    (builtEntry toyExternals cRev cKey) rfl
